import Mathlib

/-!
Verification development for the `winkey` crate: a host-side driver for the
K1EL WinKeyer serial CW keyer.  The definitions below are a shallow embedding
of the Rust source (src/protocol/response.rs, src/protocol/command.rs,
src/protocol/types.rs, src/event.rs, src/io.rs, src/message.rs,
src/winkeyer.rs, src/builder.rs).  Machine bytes (`u8`) are embedded as `Nat`
with masking where the source masks; fallible operations return `Option` or
`Except`.
-/

namespace Winkey

/-! ## event.rs — KeyerStatus and KeyerEvent -/

/-- Embeds `KeyerStatus` (src/event.rs): five booleans decoded from one
status byte. -/
structure KeyerStatus where
  xoff : Bool
  breakin : Bool
  busy : Bool
  keydown : Bool
  waiting : Bool
deriving DecidableEq, Repr

/-- Embeds `KeyerStatus::from_status_byte` (src/event.rs): datasheet layout,
bit 0 = xoff, bit 1 = breakin, bit 2 = busy, bit 3 = keydown,
bit 4 = waiting. -/
def KeyerStatus.from_status_byte (byte : Nat) : KeyerStatus :=
  { xoff := byte &&& 0x01 != 0
    breakin := byte &&& 0x02 != 0
    busy := byte &&& 0x04 != 0
    keydown := byte &&& 0x08 != 0
    waiting := byte &&& 0x10 != 0 }

/-- Embeds `KeyerEvent` (src/event.rs). -/
inductive KeyerEvent where
  | StatusChanged (status : KeyerStatus)
  | SpeedPotChanged (wpm : Nat)
  | CharacterSent (ch : Char)
  | PaddleBreakIn
  | Connected
  | Disconnected
deriving DecidableEq, Repr

/-! ## protocol/response.rs — inbound byte classification -/

/-- Embeds `ResponseByte` (src/protocol/response.rs). -/
inductive ResponseByte where
  | Status (status : KeyerStatus)
  | SpeedPot (value : Nat)
  | Echo (ch : Char)
deriving DecidableEq, Repr

/-- Embeds `classify_byte` (src/protocol/response.rs): the Rust source
matches on `byte & 0xC0` with arms `0xC0`, `0x80` and a default. -/
def classify_byte (byte : Nat) : ResponseByte :=
  if byte &&& 0xC0 == 0xC0 then
    ResponseByte.Status (KeyerStatus.from_status_byte byte)
  else if byte &&& 0xC0 == 0x80 then
    ResponseByte.SpeedPot (byte &&& 0x3F)
  else
    ResponseByte.Echo (Char.ofNat byte)

/-! ## io.rs — engine state and inbound processing -/

/-- Embeds `IoState` (src/io.rs): the xoff atomic, the breakin
edge-detection bit, and the configured minimum pot WPM. -/
structure IoState where
  xoff : Bool
  prev_breakin : Bool
  min_wpm : Nat
deriving DecidableEq, Repr

/-- The state `spawn_io_task` starts the loop with (src/io.rs): the xoff
atomic is created false and `prev_breakin` starts false. -/
def initial_io_state (min_wpm : Nat) : IoState :=
  { xoff := false, prev_breakin := false, min_wpm := min_wpm }

/-- Saturating `u8` addition, embedding Rust `u8::saturating_add`. -/
def saturating_add_u8 (a b : Nat) : Nat :=
  min (a + b) 255

/-- Embeds `process_received_byte` (src/io.rs).  Returns the updated state
and the events published for the byte, in publication order. -/
def process_received_byte (byte : Nat) (state : IoState) :
    IoState × List KeyerEvent :=
  match classify_byte byte with
  | ResponseByte.Status status =>
      ({ state with xoff := status.xoff, prev_breakin := status.breakin },
       (if status.breakin && !state.prev_breakin then
          [KeyerEvent.PaddleBreakIn]
        else []) ++ [KeyerEvent.StatusChanged status])
  | ResponseByte.SpeedPot value =>
      (state, [KeyerEvent.SpeedPotChanged (saturating_add_u8 state.min_wpm value)])
  | ResponseByte.Echo ch =>
      (state, [KeyerEvent.CharacterSent ch])

/-- Processes a sequence of inbound bytes in order, as the idle arm of the
`io_loop` select does (src/io.rs), accumulating published events. -/
def process_bytes : List Nat → IoState → IoState × List KeyerEvent
  | [], st => (st, [])
  | b :: bs, st =>
      let p := process_received_byte b st
      let q := process_bytes bs p.1
      (q.1, p.2 ++ q.2)

/-- Embeds `read_response_bytes` (src/io.rs), the ASCII-framed read used by
`WriteAndRead`: bytes with the high bit set are dispatched as events via
`process_received_byte` and do not count toward the response; bytes
0x00-0x7F are collected as the response.  The transport is modelled as the
list of bytes it will deliver; `none` embeds the exhaustion of that list
before `expected` response bytes arrive (the 2 s read timeout in the
source). -/
def read_response_bytes :
    List Nat → Nat → IoState → Option (List Nat × IoState × List KeyerEvent)
  | _, 0, st => some ([], st, [])
  | [], _ + 1, _ => none
  | b :: rest, k + 1, st =>
      if b &&& 0x80 != 0 then
        let p := process_received_byte b st
        match read_response_bytes rest (k + 1) p.1 with
        | some (resp, st', evs) => some (resp, st', p.2 ++ evs)
        | none => none
      else
        match read_response_bytes rest k st with
        | some (resp, st', evs) => some (b :: resp, st', evs)
        | none => none

/-- Modelled from the spec: the binary-framed read behind
`rt_command_read_binary`, which `WinKeyer::echo_test` calls but whose
definition is not present under src (src/io.rs only defines the ASCII-framed
`read_response_bytes`).  Per the spec's Binary framing rule, the reply bytes
are counted positionally: every inbound byte counts toward the expected
response, none is filtered as unsolicited, and no event is published during
the reply window. -/
def read_response_bytes_binary (queued : List Nat) (expected : Nat)
    (state : IoState) : Option (List Nat × IoState × List KeyerEvent) :=
  if expected ≤ queued.length then
    some (queued.take expected, state, [])
  else
    none

/-! ## protocol/command.rs — outbound command encoding and text validation -/

namespace command

/-- Embeds `admin_echo_test` (src/protocol/command.rs): bytes `00 04 value`. -/
def admin_echo_test (value : Nat) : List Nat := [0x00, 0x04, value]

/-- Embeds `set_speed` (src/protocol/command.rs): bytes `02 wpm`. -/
def set_speed (wpm : Nat) : List Nat := [0x02, wpm]

/-- Embeds `set_mode_register` (src/protocol/command.rs): bytes `0E mode`. -/
def set_mode_register (mode : Nat) : List Nat := [0x0E, mode]

/-- Embeds `buffered_merge` (src/protocol/command.rs): bytes `1B c1 c2`. -/
def buffered_merge (c1 c2 : Nat) : List Nat := [0x1B, c1, c2]

/-- Embeds `buffered_speed_change` (src/protocol/command.rs): bytes `1C wpm`. -/
def buffered_speed_change (wpm : Nat) : List Nat := [0x1C, wpm]

/-- Embeds `cancel_buffered_speed` (src/protocol/command.rs): byte `1E`. -/
def cancel_buffered_speed : List Nat := [0x1E]

/-- Embeds `is_valid_cw_char` (src/protocol/command.rs): letters, digits,
space, and the listed punctuation. -/
def is_valid_cw_char (c : Char) : Bool :=
  ('A' ≤ c && c ≤ 'Z') || ('a' ≤ c && c ≤ 'z') || ('0' ≤ c && c ≤ '9') ||
  c == ' ' || c == '.' || c == ',' || c == '?' || c == '/' || c == '!' ||
  c == '=' || c == '+' || c == '-' || c == ':' || c == ';' || c == '\x27' ||
  c == '\x22' || c == '(' || c == ')' || c == '@' || c == '&' || c == '_'

/-- Embeds `validate_cw_text` (src/protocol/command.rs): fails on the first
character outside the CW character set.  The source formats the offending
character and its index into the error string; here the error carries the
offending character. -/
def validate_cw_text (text : List Char) : Except Char Unit :=
  match text.find? (fun c => !(is_valid_cw_char c)) with
  | some c => Except.error c
  | none => Except.ok ()

/-- Embeds Rust `char::to_ascii_uppercase`: maps a-z to A-Z, leaves every
other character unchanged. -/
def to_ascii_uppercase (c : Char) : Char :=
  if 'a' ≤ c && c ≤ 'z' then Char.ofNat (c.toNat - 32) else c

/-- Embeds `encode_text` (src/protocol/command.rs): uppercases and takes the
bytes.  The source uses Unicode-aware uppercasing and UTF-8 bytes, which
coincide with per-character ASCII uppercasing and code points on the ASCII
text admitted by `validate_cw_text`. -/
def encode_text (text : List Char) : List Nat :=
  text.map (fun c => (to_ascii_uppercase c).toNat)

end command

/-! ## message.rs — contest message template compiler -/

/-- Prosign constant `PROSIGN_AR` (src/message.rs). -/
def PROSIGN_AR : Nat × Nat := (65, 82)
/-- Prosign constant `PROSIGN_SK` (src/message.rs). -/
def PROSIGN_SK : Nat × Nat := (83, 75)
/-- Prosign constant `PROSIGN_BT` (src/message.rs). -/
def PROSIGN_BT : Nat × Nat := (66, 84)
/-- Prosign constant `PROSIGN_KN` (src/message.rs). -/
def PROSIGN_KN : Nat × Nat := (75, 78)
/-- Prosign constant `PROSIGN_AS` (src/message.rs). -/
def PROSIGN_AS : Nat × Nat := (65, 83)

/-- Embeds `parse_prosign` (src/message.rs): the source uppercases the name
and matches it against the five recognised prosigns.  Unicode uppercasing
coincides with ASCII uppercasing on every name that can match. -/
def parse_prosign (name : List Char) : Option (Nat × Nat) :=
  match name.map command.to_ascii_uppercase with
  | ['A', 'R'] => some PROSIGN_AR
  | ['S', 'K'] => some PROSIGN_SK
  | ['B', 'T'] => some PROSIGN_BT
  | ['K', 'N'] => some PROSIGN_KN
  | ['A', 'S'] => some PROSIGN_AS
  | _ => none

/-- Embeds the iterator pattern `chars.by_ref().take_while(|&c| c != stop)`
used in `build_contest_message` (src/message.rs): collects characters up to
the first `stop`, consuming `stop` itself; if `stop` never occurs the whole
remainder is consumed. -/
def take_until (stop : Char) : List Char → List Char × List Char
  | [] => ([], [])
  | c :: cs =>
      if c = stop then ([], cs)
      else ((c :: (take_until stop cs).1), (take_until stop cs).2)

theorem take_until_snd_length (stop : Char) (cs : List Char) :
    (take_until stop cs).2.length ≤ cs.length := by
  induction cs with
  | nil => simp [take_until]
  | cons c cs ih =>
      simp only [take_until]
      split
      · simp
      · exact Nat.le_succ_of_le ih

/-- Embeds Rust `char::is_whitespace`, i.e. the Unicode White_Space
property: the ASCII whitespace characters U+0009-U+000D and space, plus
next line U+0085, no-break space U+00A0, Ogham space mark U+1680, the
fixed-width spaces U+2000-U+200A, line separator U+2028, paragraph
separator U+2029, narrow no-break space U+202F, medium mathematical space
U+205F, and ideographic space U+3000. -/
def is_rust_whitespace (c : Char) : Bool :=
  ('\x09' ≤ c && c ≤ '\x0d') || c == ' ' || c == '\u0085' || c == '\u00A0' ||
  c == '\u1680' || ('\u2000' ≤ c && c ≤ '\u200A') || c == '\u2028' ||
  c == '\u2029' || c == '\u202F' || c == '\u205F' || c == '\u3000'

/-- Embeds Rust `str::trim`: whitespace removed from both ends. -/
def rust_trim (s : List Char) : List Char :=
  ((s.dropWhile is_rust_whitespace).reverse.dropWhile is_rust_whitespace).reverse

/-- Embeds Rust `str::parse::<u8>`: an optional leading plus sign followed by
one or more ASCII digits, whose value fits in a `u8`; anything else fails.
(The source's per-step overflow check rejects exactly the well-formed digit
strings whose value exceeds 255.) -/
def parse_u8 (s : List Char) : Option Nat :=
  let digits := match s with
    | '+' :: rest => rest
    | _ => s
  if digits.isEmpty then none
  else if digits.all Char.isDigit then
    let v := digits.foldl (fun a c => a * 10 + (c.toNat - 48)) 0
    if v ≤ 255 then some v else none
  else none

/-- Embeds the speed-escape evaluation in `build_contest_message`
(src/message.rs): `num_str.trim().parse().unwrap_or(0)`. -/
def parse_wpm (numStr : List Char) : Nat :=
  (parse_u8 (rust_trim numStr)).getD 0

/-- The loop body of `build_contest_message` (src/message.rs), written with
a structural fuel argument so that the compiler is kernel-evaluable; the
fuel strictly dominates the number of loop iterations (each iteration
consumes at least one template character), so with fuel = template length
the zero-fuel base case is never reached. -/
def build_contest_message_go : Nat → List Char → List Nat
  | 0, _ => []
  | _ + 1, [] => []
  | fuel + 1, c :: cs =>
      if c = '<' then
        (match parse_prosign (take_until '>' cs).1 with
         | some p => command.buffered_merge p.1 p.2
         | none => []) ++ build_contest_message_go fuel (take_until '>' cs).2
      else if c = '\x7b' then
        (let wpm := parse_wpm (take_until '\x7d' cs).1
         if wpm = 0 then command.cancel_buffered_speed
         else command.buffered_speed_change wpm) ++
          build_contest_message_go fuel (take_until '\x7d' cs).2
      else
        (command.to_ascii_uppercase c).toNat % 256 ::
          build_contest_message_go fuel cs

/-- The fuel is irrelevant as long as it covers the template length, which
shrinks at least as fast as the fuel does. -/
theorem build_contest_message_go_fuel (f1 f2 : Nat) (l : List Char)
    (h1 : l.length ≤ f1) (h2 : l.length ≤ f2) :
    build_contest_message_go f1 l = build_contest_message_go f2 l := by
  induction f1 generalizing f2 l with
  | zero =>
      have : l = [] := List.length_eq_zero.mp (Nat.le_zero.mp h1)
      subst this
      cases f2 <;> rfl
  | succ f1 ih =>
      cases l with
      | nil => cases f2 <;> rfl
      | cons c cs =>
          cases f2 with
          | zero => exact absurd h2 (by simp)
          | succ f2 =>
              simp only [build_contest_message_go]
              have hcs : cs.length ≤ f1 := by simpa using h1
              have hcs2 : cs.length ≤ f2 := by simpa using h2
              have hgt : (take_until '>' cs).2.length ≤ cs.length :=
                take_until_snd_length '>' cs
              have hbr : (take_until '\x7d' cs).2.length ≤ cs.length :=
                take_until_snd_length '\x7d' cs
              rw [ih f2 (take_until '>' cs).2 (le_trans hgt hcs) (le_trans hgt hcs2),
                ih f2 (take_until '\x7d' cs).2 (le_trans hbr hcs) (le_trans hbr hcs2),
                ih f2 cs hcs hcs2]

/-- Embeds `build_contest_message` (src/message.rs) over the template's
character list: `<NAME>` compiles to a buffered merge when the name is a
recognised prosign and to nothing otherwise; a brace escape compiles to a
buffered speed change, or to cancel-buffered-speed when the contents
evaluate to 0; every other character is ASCII-uppercased and pushed as a
byte (`as u8` truncates the code point to its low 8 bits). -/
def build_contest_message (template : List Char) : List Nat :=
  build_contest_message_go template.length template

/-- `build_contest_message` applied to a Rust string (its character data). -/
def build_contest_message_str (template : String) : List Nat :=
  build_contest_message template.data

/-! ## protocol/types.rs — paddle mode and mode register -/

/-- Embeds `PaddleMode` (src/protocol/types.rs); `IambicB` is the Rust
`Default`. -/
inductive PaddleMode where
  | IambicA
  | IambicB
  | Ultimatic
  | Bug
deriving DecidableEq, Repr, Fintype

/-- Embeds `PaddleMode::to_mode_bits` (src/protocol/types.rs): the two
mode-register bits 5-4. -/
def PaddleMode.to_mode_bits : PaddleMode → Nat
  | PaddleMode.IambicB => 0x00
  | PaddleMode.IambicA => 0x10
  | PaddleMode.Ultimatic => 0x20
  | PaddleMode.Bug => 0x30

namespace ModeRegister

/-- `ModeRegister::PADDLE_WATCHDOG_DISABLE` (src/protocol/types.rs). -/
def PADDLE_WATCHDOG_DISABLE : Nat := 0x80
/-- `ModeRegister::PADDLE_ECHO` (src/protocol/types.rs). -/
def PADDLE_ECHO : Nat := 0x40
/-- `ModeRegister::SWAP_PADDLES` (src/protocol/types.rs). -/
def SWAP_PADDLES : Nat := 0x08
/-- `ModeRegister::SERIAL_ECHO` (src/protocol/types.rs). -/
def SERIAL_ECHO : Nat := 0x04
/-- `ModeRegister::AUTO_SPACE` (src/protocol/types.rs). -/
def AUTO_SPACE : Nat := 0x02
/-- `ModeRegister::CONTEST_SPACING` (src/protocol/types.rs). -/
def CONTEST_SPACING : Nat := 0x01

/-- Embeds `ModeRegister::default` (src/protocol/types.rs):
paddle echo and serial echo enabled. -/
def default : Nat := PADDLE_ECHO ||| SERIAL_ECHO

/-- Embeds `ModeRegister::with_paddle_mode` (src/protocol/types.rs). -/
def with_paddle_mode (flags : Nat) (mode : PaddleMode) : Nat :=
  flags ||| mode.to_mode_bits

end ModeRegister

/-! ## builder.rs — the handshake pieces the claims depend on -/

/-- The builder fields that determine the handshake's mode-register byte
(src/builder.rs `WinKeyerBuilder`). -/
structure BuilderConfig where
  paddle_mode : PaddleMode
  mode_flags : Nat
deriving DecidableEq, Repr

/-- Embeds `WinKeyerBuilder::new` (src/builder.rs) restricted to the fields
above: default paddle mode, default mode-register flags. -/
def builder_new : BuilderConfig :=
  { paddle_mode := PaddleMode.IambicB, mode_flags := ModeRegister.default }

/-- Embeds `WinKeyerBuilder::contest_spacing` (src/builder.rs): the
bitflags insert / remove on the mode flags. -/
def BuilderConfig.contest_spacing (b : BuilderConfig) (enabled : Bool) :
    BuilderConfig :=
  if enabled then
    { b with mode_flags := b.mode_flags ||| ModeRegister.CONTEST_SPACING }
  else
    { b with mode_flags := b.mode_flags &&& (0xFF ^^^ ModeRegister.CONTEST_SPACING) }

/-- Embeds `WinKeyerBuilder::auto_space` (src/builder.rs). -/
def BuilderConfig.auto_space (b : BuilderConfig) (enabled : Bool) :
    BuilderConfig :=
  if enabled then
    { b with mode_flags := b.mode_flags ||| ModeRegister.AUTO_SPACE }
  else
    { b with mode_flags := b.mode_flags &&& (0xFF ^^^ ModeRegister.AUTO_SPACE) }

/-- The mode-register byte of the handshake (src/builder.rs
`build_with_port`): byte 0 of the LoadDefaults block in step 5 and the byte
re-asserted on the wire as `0E mode_byte` in step 7, computed as
`self.mode_flags.with_paddle_mode(self.paddle_mode)`. -/
def handshake_mode_byte (b : BuilderConfig) : Nat :=
  ModeRegister.with_paddle_mode b.mode_flags b.paddle_mode

/-- Modelled from the spec: the seed of the cached mode-register word.  The
`WinKeyer` value constructed at the end of `build_with_port` in the source
as given does not initialise its `mode_register` field; the spec states the
cache must be seeded with the byte actually sent in handshake step 7, which
is `defaults.mode_register = handshake_mode_byte`. -/
def seeded_mode_cache (b : BuilderConfig) : Nat :=
  handshake_mode_byte b

/-! ## error.rs and winkeyer.rs — facade operations -/

/-- Embeds `Error` (src/error.rs), dropping the message payloads. -/
inductive WkError where
  | Transport
  | Protocol
  | Timeout
  | Unsupported
  | InvalidParameter
  | NotConnected
  | ConnectionLost
  | BufferFull
  | Io
deriving DecidableEq, Repr

/-- The facade state relevant to `set_speed` / `get_speed`: the cached
speed word (src/winkeyer.rs `WinKeyer::speed`). -/
structure FacadeState where
  speed : Nat
deriving DecidableEq, Repr

namespace WinKeyer

/-- Embeds `WinKeyer::set_speed` (src/winkeyer.rs).  The result is the new
cached state, the bytes queued on the RT channel, and the error if any:
outside 5..=99 the call fails with InvalidParameter before any byte is
queued and leaves the cache unchanged; otherwise `command::set_speed wpm`
is queued and the cache is updated. -/
def set_speed (st : FacadeState) (wpm : Nat) :
    FacadeState × List Nat × Option WkError :=
  if ¬(5 ≤ wpm ∧ wpm ≤ 99) then
    (st, [], some WkError.InvalidParameter)
  else
    ({ st with speed := wpm }, command.set_speed wpm, none)

/-- Embeds `WinKeyer::get_speed` (src/winkeyer.rs): returns the cached
speed. -/
def get_speed (st : FacadeState) : Nat := st.speed

/-- Embeds `WinKeyer::set_paddle_mode` (src/winkeyer.rs): read-modify-write
on the cached mode register, `(current & !0x30) | mode.to_mode_bits()`
(`!0x30` on `u8` is `0xCF`), sending `0E new` and storing the new byte back
in the cache.  Returns the new cache value and the wire bytes. -/
def set_paddle_mode (cached : Nat) (mode : PaddleMode) : Nat × List Nat :=
  let new_byte := (cached &&& 0xCF) ||| mode.to_mode_bits
  (new_byte, command.set_mode_register new_byte)

/-- Embeds `WinKeyer::echo_test` (src/winkeyer.rs): writes `00 04 byte` and
reads one reply byte with the binary-framed read
(`read_response_bytes_binary`, modelled from the spec).  `queued` is the
byte stream the transport delivers during the reply window.  Returns the
wire bytes and, on success, the echoed byte with the post-read engine state
and the events published during the read. -/
def echo_test (byte : Nat) (queued : List Nat) (state : IoState) :
    List Nat × Option (Nat × IoState × List KeyerEvent) :=
  (command.admin_echo_test byte,
   match read_response_bytes_binary queued 1 state with
   | some (resp, st', evs) =>
       match resp with
       | r :: _ => some (r, st', evs)
       | [] => none
   | none => none)

/-- Embeds `WinKeyer::send_message` (src/winkeyer.rs): validates the text
first and only queues the encoded bytes when validation passes. -/
def send_message (text : List Char) : Except WkError (List Nat) :=
  match command.validate_cw_text text with
  | Except.error _ => Except.error WkError.InvalidParameter
  | Except.ok _ => Except.ok (command.encode_text text)

end WinKeyer

/-! ## Helper definitions and lemmas shared by the claim theorems -/

/-- A byte whose top two bits are `11`, i.e. one classified as a Status
byte. -/
def is_status_byte (b : Nat) : Bool := b &&& 0xC0 == 0xC0

/-- The most recently processed Status byte of an inbound byte sequence,
if any. -/
def last_status_byte (bs : List Nat) : Option Nat :=
  (bs.filter is_status_byte).getLast?

theorem process_received_byte_of_status (b : Nat) (st : IoState)
    (hb : is_status_byte b = true) :
    process_received_byte b st =
      ({ st with xoff := (KeyerStatus.from_status_byte b).xoff,
                 prev_breakin := (KeyerStatus.from_status_byte b).breakin },
       (if (KeyerStatus.from_status_byte b).breakin && !st.prev_breakin then
          [KeyerEvent.PaddleBreakIn] else []) ++
        [KeyerEvent.StatusChanged (KeyerStatus.from_status_byte b)]) := by
  unfold is_status_byte at hb
  unfold process_received_byte classify_byte
  rw [if_pos hb]

theorem process_received_byte_of_not_status (b : Nat) (st : IoState)
    (hb : is_status_byte b = false) :
    (process_received_byte b st).1 = st := by
  unfold is_status_byte at hb
  unfold process_received_byte classify_byte
  rw [if_neg (by simp [hb])]
  by_cases h2 : (b &&& 0xC0 == 0x80) = true
  · rw [if_pos h2]
  · rw [if_neg h2]

theorem last_status_byte_cons (b : Nat) (bs : List Nat) :
    last_status_byte (b :: bs) =
      match last_status_byte bs with
      | some x => some x
      | none => if is_status_byte b then some b else none := by
  unfold last_status_byte
  by_cases hb : is_status_byte b
  · rw [List.filter_cons, if_pos (by simpa using hb)]
    cases h : (bs.filter is_status_byte).getLast? with
    | none =>
        have hnil : bs.filter is_status_byte = [] := by
          simpa using h
        rw [hnil]
        simp [hb]
    | some x =>
        have hne : bs.filter is_status_byte ≠ [] := by
          intro hnil
          rw [hnil] at h
          simp at h
        obtain ⟨c, l', hcl⟩ := List.exists_cons_of_ne_nil hne
        rw [hcl]
        rw [hcl] at h
        rw [List.getLast?_cons_cons, h]
  · rw [List.filter_cons, if_neg (by simpa using hb)]
    cases h : (bs.filter is_status_byte).getLast? with
    | none => simp [hb]
    | some x => rfl

theorem parse_u8_le_255 (s : List Char) (v : Nat) (h : parse_u8 s = some v) :
    v ≤ 255 := by
  unfold parse_u8 at h
  split at h <;> simp at h <;> omega

theorem take_until_of_not_mem (stop : Char) (s rest : List Char)
    (h : stop ∉ s) :
    take_until stop (s ++ stop :: rest) = (s, rest) := by
  induction s with
  | nil => simp [take_until]
  | cons c cs ih =>
      have hc : ¬(c = stop) := fun hch => h (hch ▸ List.mem_cons_self c cs)
      have hcs : stop ∉ cs := fun hm => h (List.mem_cons_of_mem c hm)
      have hstep : (c :: cs) ++ stop :: rest = c :: (cs ++ stop :: rest) := rfl
      rw [hstep]
      unfold take_until
      rw [if_neg hc, ih hcs]

/-! ## Claim theorems -/

/-- C1: for every byte b in 0x00..=0xFF, if the transport supplies exactly
the single byte b as the reply to the Echo Test command `00 04 b`, then
`echo_test b` returns Ok b; in particular `echo_test 0x80` with 0x80 queued
returns 0x80, and no SpeedPotChanged event is published for the reply byte
(binary framing counts the reply positionally and publishes no events
during the reply). -/
theorem C1_echo_test_binary_reply (b : Nat) (st : IoState) (hb : b ≤ 0xFF) :
    (WinKeyer.echo_test b [b] st).1 = [0x00, 0x04, b] ∧
    (WinKeyer.echo_test b [b] st).2 = some (b, st, []) ∧
    (∀ r st' evs, (WinKeyer.echo_test b [b] st).2 = some (r, st', evs) →
      ∀ wpm, KeyerEvent.SpeedPotChanged wpm ∉ evs) := by
  refine ⟨rfl, ?_, ?_⟩
  · simp [WinKeyer.echo_test, read_response_bytes_binary]
  · intro r st' evs h wpm hmem
    simp [WinKeyer.echo_test, read_response_bytes_binary] at h
    obtain ⟨-, -, rfl⟩ := h
    exact absurd hmem (List.not_mem_nil _)

/-- Witness for C1 at b = 0x80: the reply is 0x80 and no events are
published. -/
theorem C1_echo_test_binary_reply_witness :
    (WinKeyer.echo_test 0x80 [0x80] (initial_io_state 10)).2 =
      some (0x80, initial_io_state 10, []) :=
  (C1_echo_test_binary_reply 0x80 (initial_io_state 10) (by decide)).2.1

set_option maxRecDepth 100000 in
/-- C2: for every status byte b in 0xC0..=0xFF the decode follows the
datasheet layout (bit 0 = xoff, bit 1 = breakin, bit 2 = busy,
bit 3 = keydown, bit 4 = waiting), and in particular 0xC1 sets xoff rather
than breakin (ruling out the legacy layout with xoff at bit 1). -/
theorem C2_status_datasheet_layout :
    (∀ b, b < 256 → 0xC0 ≤ b →
      (KeyerStatus.from_status_byte b).xoff = b.testBit 0 ∧
      (KeyerStatus.from_status_byte b).breakin = b.testBit 1 ∧
      (KeyerStatus.from_status_byte b).busy = b.testBit 2 ∧
      (KeyerStatus.from_status_byte b).keydown = b.testBit 3 ∧
      (KeyerStatus.from_status_byte b).waiting = b.testBit 4) ∧
    (KeyerStatus.from_status_byte 0xC1).xoff = true ∧
    (KeyerStatus.from_status_byte 0xC1).breakin = false ∧
    (KeyerStatus.from_status_byte 0xC2).xoff = false ∧
    (KeyerStatus.from_status_byte 0xC2).breakin = true := by
  decide

/-- Witness for C2 at b = 0xD5. -/
theorem C2_status_datasheet_layout_witness :
    (KeyerStatus.from_status_byte 0xD5).xoff = Nat.testBit 0xD5 0 ∧
    (KeyerStatus.from_status_byte 0xD5).breakin = Nat.testBit 0xD5 1 ∧
    (KeyerStatus.from_status_byte 0xD5).busy = Nat.testBit 0xD5 2 ∧
    (KeyerStatus.from_status_byte 0xD5).keydown = Nat.testBit 0xD5 3 ∧
    (KeyerStatus.from_status_byte 0xD5).waiting = Nat.testBit 0xD5 4 :=
  C2_status_datasheet_layout.1 0xD5 (by decide) (by decide)

set_option maxRecDepth 100000 in
/-- C3: the compiled contest message for the template
28-wpm-escape, "CQ TEST K1EL", 20-wpm-escape, " 5NN", prosign AR is exactly
`1C 28 C Q space T E S T space K 1 E L 1C 20 space 5 N N 1B A R`, with no
bytes before, between, or after. -/
theorem C3_contest_message_bytes :
    build_contest_message_str "\x7b28\x7dCQ TEST K1EL\x7b20\x7d 5NN<AR>" =
      [0x1C, 28] ++
      (['C', 'Q', ' ', 'T', 'E', 'S', 'T', ' ', 'K', '1', 'E', 'L'].map Char.toNat) ++
      [0x1C, 20] ++ ([' ', '5', 'N', 'N'].map Char.toNat) ++
      [0x1B, 'A'.toNat, 'R'.toNat] := by
  decide

/-- C4: `set_speed wpm` fails with InvalidParameter exactly when wpm < 5 or
wpm > 99 (5 and 99 accepted, 4 and 100 rejected); on failure no bytes are
queued and the cached speed is unchanged; on success the bytes `02 wpm` are
queued and `get_speed` then returns wpm. -/
theorem C4_set_speed_bounds (st : FacadeState) (wpm : Nat) :
    ((WinKeyer.set_speed st wpm).2.2 = some WkError.InvalidParameter ↔
      wpm < 5 ∨ 99 < wpm) ∧
    (wpm < 5 ∨ 99 < wpm →
      (WinKeyer.set_speed st wpm).1 = st ∧
      (WinKeyer.set_speed st wpm).2.1 = []) ∧
    (5 ≤ wpm → wpm ≤ 99 →
      (WinKeyer.set_speed st wpm).2.2 = none ∧
      (WinKeyer.set_speed st wpm).2.1 = [0x02, wpm] ∧
      WinKeyer.get_speed (WinKeyer.set_speed st wpm).1 = wpm) ∧
    (WinKeyer.set_speed st 5).2.2 = none ∧
    (WinKeyer.set_speed st 99).2.2 = none ∧
    (WinKeyer.set_speed st 4).2.2 = some WkError.InvalidParameter ∧
    (WinKeyer.set_speed st 100).2.2 = some WkError.InvalidParameter := by
  refine ⟨?_, ?_, ?_, ?_, ?_, ?_, ?_⟩
  · by_cases h : 5 ≤ wpm ∧ wpm ≤ 99
    · unfold WinKeyer.set_speed
      rw [if_neg (not_not_intro h)]
      simp
      omega
    · unfold WinKeyer.set_speed
      rw [if_pos h]
      simp
      omega
  · intro hcon
    unfold WinKeyer.set_speed
    rw [if_pos (by omega)]
    exact ⟨rfl, rfl⟩
  · intro h5 h99
    unfold WinKeyer.set_speed
    rw [if_neg (by omega)]
    exact ⟨rfl, rfl, rfl⟩
  · unfold WinKeyer.set_speed
    rw [if_neg (by decide)]
  · unfold WinKeyer.set_speed
    rw [if_neg (by decide)]
  · unfold WinKeyer.set_speed
    rw [if_pos (by decide)]
  · unfold WinKeyer.set_speed
    rw [if_pos (by decide)]

/-- Witness for C4 at st = 20 wpm cached, wpm = 28: success queues `02 28`
and the cache then reads 28. -/
theorem C4_set_speed_bounds_witness :
    (WinKeyer.set_speed ⟨20⟩ 28).2.2 = none ∧
    (WinKeyer.set_speed ⟨20⟩ 28).2.1 = [0x02, 28] ∧
    WinKeyer.get_speed (WinKeyer.set_speed ⟨20⟩ 28).1 = 28 :=
  (C4_set_speed_bounds ⟨20⟩ 28).2.2.1 (by decide) (by decide)

/-- C5: for a Status byte, PaddleBreakIn is published iff the byte's breakin
bit is set and the stored prev_breakin is clear; when published it comes
immediately before the StatusChanged event for that byte; prev_breakin ends
up equal to the byte's breakin bit (updated exactly once); and the inbound
sequence C0 C2 yields StatusChanged (breakin false), PaddleBreakIn,
StatusChanged (breakin true), in that order. -/
theorem C5_breakin_edge (b : Nat) (st : IoState) (m : Nat)
    (hb : is_status_byte b = true) :
    (KeyerEvent.PaddleBreakIn ∈ (process_received_byte b st).2 ↔
      (KeyerStatus.from_status_byte b).breakin = true ∧
      st.prev_breakin = false) ∧
    (KeyerEvent.PaddleBreakIn ∈ (process_received_byte b st).2 →
      (process_received_byte b st).2 =
        [KeyerEvent.PaddleBreakIn,
         KeyerEvent.StatusChanged (KeyerStatus.from_status_byte b)]) ∧
    (KeyerEvent.PaddleBreakIn ∉ (process_received_byte b st).2 →
      (process_received_byte b st).2 =
        [KeyerEvent.StatusChanged (KeyerStatus.from_status_byte b)]) ∧
    (process_received_byte b st).1.prev_breakin =
      (KeyerStatus.from_status_byte b).breakin ∧
    (process_bytes [0xC0, 0xC2] (initial_io_state m)).2 =
      [KeyerEvent.StatusChanged ⟨false, false, false, false, false⟩,
       KeyerEvent.PaddleBreakIn,
       KeyerEvent.StatusChanged ⟨false, true, false, false, false⟩] := by
  have hconc : (process_bytes [0xC0, 0xC2] (initial_io_state m)).2 =
      [KeyerEvent.StatusChanged ⟨false, false, false, false, false⟩,
       KeyerEvent.PaddleBreakIn,
       KeyerEvent.StatusChanged ⟨false, true, false, false, false⟩] := rfl
  rw [process_received_byte_of_status b st hb]
  by_cases hbr : ((KeyerStatus.from_status_byte b).breakin &&
      !st.prev_breakin) = true
  · rw [if_pos hbr]
    rw [Bool.and_eq_true, Bool.not_eq_true'] at hbr
    refine ⟨by simp [hbr.1, hbr.2], fun _ => rfl, fun hmem => ?_, rfl, hconc⟩
    exact absurd (by simp) hmem
  · rw [if_neg hbr]
    have hbr' : ¬((KeyerStatus.from_status_byte b).breakin = true ∧
        st.prev_breakin = false) := by
      intro hcon
      exact hbr (by simp [hcon.1, hcon.2])
    refine ⟨by simpa using hbr', fun hmem => ?_, fun _ => rfl, rfl, hconc⟩
    exact absurd (by simpa using hmem) hbr'

/-- Witness for C5 at b = 0xC2 with prev_breakin clear: PaddleBreakIn fires
and precedes the StatusChanged event. -/
theorem C5_breakin_edge_witness :
    (process_received_byte 0xC2 (initial_io_state 10)).2 =
      [KeyerEvent.PaddleBreakIn,
       KeyerEvent.StatusChanged (KeyerStatus.from_status_byte 0xC2)] :=
  (C5_breakin_edge 0xC2 (initial_io_state 10) 10 (by decide)).2.1 (by decide)

set_option maxRecDepth 100000 in
/-- C6: `set_paddle_mode` is a read-modify-write on the cached
mode-register byte that sets bits 5-4 to the mode's encoding and preserves
all other bits, sending `0E new` on the wire; after a handshake with
contest-spacing and auto-space set (cache seeded with the step-7 mode
byte), `set_paddle_mode Ultimatic` puts `0E 67` on the wire, with
67 AND 30 = 20, bit 0 set, and bit 1 set. -/
theorem C6_paddle_mode_rmw :
    (∀ cached, cached < 256 → ∀ mode : PaddleMode,
      (WinKeyer.set_paddle_mode cached mode).1 &&& 0x30 = mode.to_mode_bits ∧
      (WinKeyer.set_paddle_mode cached mode).1 &&& 0xCF = cached &&& 0xCF ∧
      (WinKeyer.set_paddle_mode cached mode).2 =
        [0x0E, (WinKeyer.set_paddle_mode cached mode).1]) ∧
    (WinKeyer.set_paddle_mode
        (seeded_mode_cache ((builder_new.contest_spacing true).auto_space true))
        PaddleMode.Ultimatic).2 = [0x0E, 0x67] ∧
    0x67 &&& 0x30 = 0x20 ∧ 0x67 &&& 0x01 ≠ 0 ∧ 0x67 &&& 0x02 ≠ 0 := by
  decide

/-- Witness for C6 at cached = 0x47 (the seeded handshake byte) and mode =
Ultimatic. -/
theorem C6_paddle_mode_rmw_witness :
    (WinKeyer.set_paddle_mode 0x47 PaddleMode.Ultimatic).1 &&& 0x30 =
      PaddleMode.Ultimatic.to_mode_bits ∧
    (WinKeyer.set_paddle_mode 0x47 PaddleMode.Ultimatic).1 &&& 0xCF =
      0x47 &&& 0xCF ∧
    (WinKeyer.set_paddle_mode 0x47 PaddleMode.Ultimatic).2 =
      [0x0E, (WinKeyer.set_paddle_mode 0x47 PaddleMode.Ultimatic).1] :=
  C6_paddle_mode_rmw.1 0x47 (by decide) PaddleMode.Ultimatic

/-- C7: after processing any inbound byte sequence the xoff flag equals
bit 0 of the most recently processed Status byte, is false when no Status
byte has been processed from the initial state, and non-Status bytes never
change it. -/
theorem C7_xoff_tracks_status :
    (∀ bs st, (process_bytes bs st).1.xoff =
      (match last_status_byte bs with
       | some b => (b &&& 0x01 != 0 : Bool)
       | none => st.xoff)) ∧
    (∀ bs m, last_status_byte bs = none →
      (process_bytes bs (initial_io_state m)).1.xoff = false) ∧
    (∀ b st, is_status_byte b = false →
      (process_received_byte b st).1.xoff = st.xoff) := by
  have hmain : ∀ bs st, (process_bytes bs st).1.xoff =
      (match last_status_byte bs with
       | some b => (b &&& 0x01 != 0 : Bool)
       | none => st.xoff) := by
    intro bs
    induction bs with
    | nil => intro st; rfl
    | cons b bs ih =>
        intro st
        simp only [process_bytes]
        rw [ih, last_status_byte_cons]
        cases h : last_status_byte bs with
        | some x => rfl
        | none =>
            by_cases hb : is_status_byte b = true
            · rw [process_received_byte_of_status b st hb]
              simp [hb, KeyerStatus.from_status_byte]
            · rw [process_received_byte_of_not_status b st
                (by simpa using hb)]
              simp [hb]
  refine ⟨hmain, ?_, ?_⟩
  · intro bs m h
    rw [hmain bs (initial_io_state m), h]
    rfl
  · intro b st hb
    rw [process_received_byte_of_not_status b st hb]

/-- Witness for C7: after C1 8A 41 the xoff flag is set (the last Status
byte C1 has bit 0 set); after 8A 41 alone it stays false; the SpeedPot byte
8A leaves xoff untouched. -/
theorem C7_xoff_tracks_status_witness :
    (process_bytes [0xC1, 0x8A, 0x41] (initial_io_state 10)).1.xoff =
      (match last_status_byte [0xC1, 0x8A, 0x41] with
       | some b => (b &&& 0x01 != 0 : Bool)
       | none => (initial_io_state 10).xoff) ∧
    (process_bytes [0x8A, 0x41] (initial_io_state 10)).1.xoff = false ∧
    (process_received_byte 0x8A (initial_io_state 10)).1.xoff =
      (initial_io_state 10).xoff :=
  ⟨C7_xoff_tracks_status.1 [0xC1, 0x8A, 0x41] (initial_io_state 10),
   C7_xoff_tracks_status.2.1 [0x8A, 0x41] 10 (by decide),
   C7_xoff_tracks_status.2.2 0x8A (initial_io_state 10) (by decide)⟩

set_option maxRecDepth 100000 in
/-- C8: for every inbound byte, classification is total and determined by
the top two bits: Status for C0-FF, SpeedPot carrying the low six bits
(a value below 64) for 80-BF, Echo for 00-7F; the three ranges cover all of
0..256 and are mutually exclusive. -/
theorem C8_classify_partition :
    ∀ b, b < 256 →
      (0xC0 ≤ b →
        classify_byte b =
          ResponseByte.Status (KeyerStatus.from_status_byte b)) ∧
      (0x80 ≤ b → b < 0xC0 →
        classify_byte b = ResponseByte.SpeedPot (b &&& 0x3F) ∧
        b &&& 0x3F < 64) ∧
      (b < 0x80 → classify_byte b = ResponseByte.Echo (Char.ofNat b)) ∧
      ((0xC0 ≤ b ∧ ¬(0x80 ≤ b ∧ b < 0xC0) ∧ ¬b < 0x80) ∨
       ((0x80 ≤ b ∧ b < 0xC0) ∧ ¬0xC0 ≤ b ∧ ¬b < 0x80) ∨
       (b < 0x80 ∧ ¬0xC0 ≤ b ∧ ¬(0x80 ≤ b ∧ b < 0xC0))) := by
  decide

/-- Witness for C8 at b = 0x8A: classified as SpeedPot with value 10. -/
theorem C8_classify_partition_witness :
    classify_byte 0x8A = ResponseByte.SpeedPot (0x8A &&& 0x3F) ∧
    0x8A &&& 0x3F < 64 :=
  (C8_classify_partition 0x8A (by decide)).2.1 (by decide) (by decide)

/-- C9: a brace escape whose contents do not parse as an integer in 1..=255
compiles to the single cancel-buffered-speed byte 0x1E, exactly as the "0"
and empty contents do; in particular the templates with contents "abc",
"300" and a lone space each compile to [0x1E]. -/
theorem C9_unparseable_speed_escape (s rest : List Char)
    (hclose : '\x7d' ∉ s)
    (hparse : ∀ n, 1 ≤ n → n ≤ 255 → parse_u8 (rust_trim s) ≠ some n) :
    build_contest_message ('\x7b' :: (s ++ '\x7d' :: rest)) =
      0x1E :: build_contest_message rest ∧
    build_contest_message_str "\x7babc\x7d" = [0x1E] ∧
    build_contest_message_str "\x7b300\x7d" = [0x1E] ∧
    build_contest_message_str "\x7b \x7d" = [0x1E] ∧
    build_contest_message_str "\x7b0\x7d" = [0x1E] ∧
    build_contest_message_str "\x7b\x7d" = [0x1E] := by
  have hwpm : parse_wpm s = 0 := by
    unfold parse_wpm
    cases h : parse_u8 (rust_trim s) with
    | none => rfl
    | some v =>
        have hv : v ≤ 255 := parse_u8_le_255 _ _ h
        have h1 : ¬(1 ≤ v) := fun h1 => hparse v h1 hv h
        simp
        omega
  refine ⟨?_, by decide, by decide, by decide, by decide, by decide⟩
  unfold build_contest_message
  simp only [List.length_cons, build_contest_message_go,
    take_until_of_not_mem '\x7d' s rest hclose]
  simp [hwpm, command.cancel_buffered_speed]
  exact build_contest_message_go_fuel _ _ rest (by omega) (le_refl _)

/-- Witness for C9 with contents "abc" and remainder "K": the escape
compiles to 0x1E followed by the compilation of the remainder. -/
theorem C9_unparseable_speed_escape_witness :
    build_contest_message ('\x7b' :: (['a', 'b', 'c'] ++ '\x7d' :: ['K'])) =
      0x1E :: build_contest_message ['K'] :=
  (C9_unparseable_speed_escape ['a', 'b', 'c'] ['K'] (by decide)
    (fun n h1 _ h => by
      have : parse_u8 (rust_trim ['a', 'b', 'c']) = none := by decide
      rw [this] at h
      exact Option.noConfusion h)).1

/-- C10: the compiler performs no CW character validation: every plain
character outside an escape is ASCII-uppercased and emitted as the low
8 bits of its code point, including characters `validate_cw_text` rejects
(tilde, tab, non-ASCII), and `send_message` by contrast rejects such text
with InvalidParameter before queueing anything. -/
theorem C10_no_cw_validation (c : Char) (cs : List Char)
    (h1 : c ≠ '<') (h2 : c ≠ '\x7b') :
    build_contest_message (c :: cs) =
      (command.to_ascii_uppercase c).toNat % 256 ::
        build_contest_message cs ∧
    (command.is_valid_cw_char '~' = false ∧
      build_contest_message_str "~" = [0x7E]) ∧
    (command.is_valid_cw_char '\t' = false ∧
      build_contest_message_str "\t" = [9]) ∧
    (command.is_valid_cw_char 'Ā' = false ∧
      build_contest_message_str "Ā" = [0x00]) ∧
    WinKeyer.send_message ['~'] = Except.error WkError.InvalidParameter := by
  refine ⟨?_, by decide, by decide, by decide, by rfl⟩
  unfold build_contest_message
  simp only [List.length_cons, build_contest_message_go]
  rw [if_neg h1, if_neg h2]

/-- Witness for C10 at c = tilde: the invalid character is emitted
unvalidated as its code point. -/
theorem C10_no_cw_validation_witness :
    build_contest_message ('~' :: ['A']) =
      (command.to_ascii_uppercase '~').toNat % 256 ::
        build_contest_message ['A'] :=
  (C10_no_cw_validation '~' ['A'] (by decide) (by decide)).1

end Winkey
